import Mathlib

/-!
Shallow embedding of the sprite scene-graph and action-scheduler library
(`src/sprite.rs`, `src/scene.rs`) and proofs of properties of its
specification.

Modelling conventions:
* `f64` scalars are embedded as `ℚ`; the trigonometric entries of the
  rotation matrix are abstract function parameters `cosd sind : ℚ → ℚ`
  since the rendering backend's `rot_deg` is external to this crate.
* `Uuid` is embedded as `Nat`: an opaque identifier compared for equality.
* Rust `HashMap` fields (`children_index`, `running`) are embedded as
  association lists; `HashMap::insert` replaces an existing key binding or
  appends a new one, `find` returns the binding of the key.
* A Rust panic (`Option::unwrap` on `None`, out-of-range `Vec` indexing)
  is embedded as a `none` result of the enclosing operation.
* The behavior-tree evaluator (`event` crate), the action module and the
  rendering backend are external collaborators; they are parameters of the
  embedding (`SceneExt`, `ImageSize`, `cosd`/`sind`).
-/

/-- Status of a behavior as reported by the external evaluator
(`event::Status`): `Running`, `Success` or `Failure`. -/
inductive Status : Type where
  | Running : Status
  | Success : Status
  | Failure : Status
deriving DecidableEq, Repr

/-- Modelled from the spec: `ActionState` (from the crate's `action` module,
whose source is not provided) is either *unbound* (`EmptyState`, no
continuation yet) or action-specific continuation data seeded from the
target entity's state at first binding. -/
inductive ActionState (A : Type) : Type where
  | EmptyState : ActionState A
  | Bound : A → ActionState A
deriving DecidableEq, Repr

/-- 2D affine transform, modelling the rendering backend's composable
transform (`graphics::Context` transform): `x' = a x + b y + c`,
`y' = d x + e y + f`. -/
structure Aff : Type where
  a : ℚ
  b : ℚ
  c : ℚ
  d : ℚ
  e : ℚ
  f : ℚ
deriving DecidableEq, Repr

namespace Aff

/-- Apply an affine transform to a point. -/
def apply (m : Aff) (p : ℚ × ℚ) : ℚ × ℚ :=
  (m.a * p.1 + m.b * p.2 + m.c, m.d * p.1 + m.e * p.2 + m.f)

/-- Composition of affine transforms (matrix product): the backend's
`.trans`/`.rot_deg`/`.scale` post-multiply the current transform. -/
def mul (m n : Aff) : Aff :=
  { a := m.a * n.a + m.b * n.d
    b := m.a * n.b + m.b * n.e
    c := m.a * n.c + m.b * n.f + m.c
    d := m.d * n.a + m.e * n.d
    e := m.d * n.b + m.e * n.e
    f := m.d * n.c + m.e * n.f + m.f }

/-- Identity transform. -/
def ident : Aff := { a := 1, b := 0, c := 0, d := 0, e := 1, f := 0 }

/-- Translation (backend `.trans(x, y)`). -/
def transA (x y : ℚ) : Aff := { a := 1, b := 0, c := x, d := 0, e := 1, f := y }

/-- Rotation matrix with given cosine and sine values (backend
`.rot_deg(deg)` evaluated at `c = cos deg°`, `s = sin deg°`). -/
def rotA (c s : ℚ) : Aff := { a := c, b := -s, c := 0, d := s, e := c, f := 0 }

/-- Scaling (backend `.scale(sx, sy)`). -/
def scaleA (sx sy : ℚ) : Aff := { a := sx, b := 0, c := 0, d := 0, e := sy, f := 0 }

/-- Horizontal mirroring (backend `.flip_h()`). -/
def flipH : Aff := scaleA (-1) 1

/-- Vertical mirroring (backend `.flip_v()`). -/
def flipV : Aff := scaleA 1 (-1)

end Aff

/-- The `graphics::ImageSize` trait: a texture with queryable pixel size. -/
class ImageSize (I : Type) where
  get_size : I → Nat × Nat

/-- Lookup in an association list modelling `HashMap::find`:
returns the value bound to the key, if any. -/
def lookupIdx {β : Type} (l : List (Nat × β)) (k : Nat) : Option β :=
  match l with
  | [] => none
  | (k2, v) :: rest => if k2 = k then some v else lookupIdx rest k

/-- `HashMap::insert`: replace the binding of the key if present,
otherwise add a new binding. -/
def mapInsert {β : Type} (l : List (Nat × β)) (k : Nat) (v : β) : List (Nat × β) :=
  match l with
  | [] => [(k, v)]
  | (k2, v2) :: rest =>
      if k2 = k then (k2, v) :: rest else (k2, v2) :: mapInsert rest k v

/-- An entity of the scene tree (`Sprite<I>` from `src/sprite.rs`):
id, anchor, position, rotation (degrees), scale, flip flags, children,
direct-child index, and a shared texture handle. -/
inductive Sprite (I : Type) : Type where
  | mk (id : Nat) (anchor : ℚ × ℚ) (position : ℚ × ℚ) (rotation : ℚ)
       (scale : ℚ × ℚ) (flip_x : Bool) (flip_y : Bool)
       (children : List (Sprite I)) (children_index : List (Nat × Nat))
       (texture : I) : Sprite I

namespace Sprite

variable {I : Type}

/-- Field accessor `Sprite::id`. -/
def id : Sprite I → Nat
  | .mk i _ _ _ _ _ _ _ _ _ => i

/-- Field accessor: anchor (normalized). -/
def anchor : Sprite I → ℚ × ℚ
  | .mk _ a _ _ _ _ _ _ _ _ => a

/-- Field accessor: position. -/
def position : Sprite I → ℚ × ℚ
  | .mk _ _ p _ _ _ _ _ _ _ => p

/-- Field accessor: rotation in degrees. -/
def rotation : Sprite I → ℚ
  | .mk _ _ _ r _ _ _ _ _ _ => r

/-- Field accessor: scale. -/
def scale : Sprite I → ℚ × ℚ
  | .mk _ _ _ _ s _ _ _ _ _ => s

/-- Field accessor: `flip_x`. -/
def flip_x : Sprite I → Bool
  | .mk _ _ _ _ _ fx _ _ _ _ => fx

/-- Field accessor: `flip_y`. -/
def flip_y : Sprite I → Bool
  | .mk _ _ _ _ _ _ fy _ _ _ => fy

/-- Field accessor: children (ordered, exclusively owned). -/
def children : Sprite I → List (Sprite I)
  | .mk _ _ _ _ _ _ _ ch _ _ => ch

/-- Field accessor: direct-child id index. -/
def children_index : Sprite I → List (Nat × Nat)
  | .mk _ _ _ _ _ _ _ _ idx _ => idx

/-- Field accessor: texture handle. -/
def texture : Sprite I → I
  | .mk _ _ _ _ _ _ _ _ _ t => t

/-- `Sprite::from_texture`: construct a sprite from a texture with default
attributes. Fresh-id generation (`Uuid::new_v4`) is external randomness;
the generated id is passed as a parameter. -/
def from_texture (fresh_id : Nat) (tex : I) : Sprite I :=
  .mk fresh_id (1/2, 1/2) (0, 0) 0 (1, 1) false false [] [] tex

/-- `Sprite::set_anchor`. -/
def set_anchor (sp : Sprite I) (x y : ℚ) : Sprite I :=
  match sp with
  | .mk i _ p r s fx fy ch idx t => .mk i (x, y) p r s fx fy ch idx t

/-- `Sprite::set_position`. -/
def set_position (sp : Sprite I) (x y : ℚ) : Sprite I :=
  match sp with
  | .mk i a _ r s fx fy ch idx t => .mk i a (x, y) r s fx fy ch idx t

/-- `Sprite::set_rotation`. -/
def set_rotation (sp : Sprite I) (deg : ℚ) : Sprite I :=
  match sp with
  | .mk i a p _ s fx fy ch idx t => .mk i a p deg s fx fy ch idx t

/-- `Sprite::set_flip_x`. -/
def set_flip_x (sp : Sprite I) (v : Bool) : Sprite I :=
  match sp with
  | .mk i a p r s _ fy ch idx t => .mk i a p r s v fy ch idx t

/-- `Sprite::set_flip_y`. -/
def set_flip_y (sp : Sprite I) (v : Bool) : Sprite I :=
  match sp with
  | .mk i a p r s fx _ ch idx t => .mk i a p r s fx v ch idx t

/-- `Sprite::set_texture`. -/
def set_texture (sp : Sprite I) (tex : I) : Sprite I :=
  match sp with
  | .mk i a p r s fx fy ch idx _ => .mk i a p r s fx fy ch idx tex

/-- `Sprite::add_child`: append the child, record its id in the local
index, return the updated sprite together with the child's id. -/
def add_child (sp : Sprite I) (child : Sprite I) : Sprite I × Nat :=
  match sp with
  | .mk i a p r s fx fy ch idx t =>
      (.mk i a p r s fx fy (ch ++ [child])
        (mapInsert idx child.id ((ch ++ [child]).length - 1)) t, child.id)

mutual

/-- `Sprite::child`: O(1) check against the local index (the indexed
position is read from `children`; an out-of-range position, a Rust panic,
is embedded as `none`); on miss, depth-first scan of the children in array
order, recursing into each. -/
def child (sp : Sprite I) (i : Nat) : Option (Sprite I) :=
  match sp with
  | .mk _ _ _ _ _ _ _ ch idx _ =>
      match lookupIdx idx i with
      | some j => ch[j]?
      | none => childList ch i

/-- The `for child in self.children.iter()` loop of `Sprite::child`. -/
def childList (l : List (Sprite I)) (i : Nat) : Option (Sprite I) :=
  match l with
  | [] => none
  | c :: rest =>
      match child c i with
      | some r => some r
      | none => childList rest i

end

mutual

/-- `Sprite::child_mut`: textually the mutable twin of `Sprite::child`,
embedded as the lookup it performs. -/
def child_mut (sp : Sprite I) (i : Nat) : Option (Sprite I) :=
  match sp with
  | .mk _ _ _ _ _ _ _ ch idx _ =>
      match lookupIdx idx i with
      | some j => ch[j]?
      | none => childMutList ch i

/-- The `for child in self.children.mut_iter()` loop of `Sprite::child_mut`. -/
def childMutList (l : List (Sprite I)) (i : Nat) : Option (Sprite I) :=
  match l with
  | [] => none
  | c :: rest =>
      match child_mut c i with
      | some r => some r
      | none => childMutList rest i

end

end Sprite

/-- The mutable attributes of a sprite: everything an external action can
read and write through its `&mut Sprite` borrow. Per the spec, actions
mutate the target entity's *attributes*; the identity and tree structure
(`id`, `children`, `children_index`) have no mutating API. -/
structure SpriteAttrs (I : Type) : Type where
  anchor : ℚ × ℚ
  position : ℚ × ℚ
  rotation : ℚ
  scale : ℚ × ℚ
  flip_x : Bool
  flip_y : Bool
  texture : I

/-- One issued image-draw call of the rendering backend: the transform and
rectangle of `model.image(texture).draw(b)`. -/
structure DrawCmd (I : Type) : Type where
  transform : Aff
  rect : ℚ × ℚ × ℚ × ℚ
  texture : I

namespace Sprite

variable {I : Type}

/-- Read a sprite's mutable attributes. -/
def getAttrs (sp : Sprite I) : SpriteAttrs I :=
  match sp with
  | .mk _ a p r s fx fy _ _ t =>
      { anchor := a, position := p, rotation := r, scale := s,
        flip_x := fx, flip_y := fy, texture := t }

/-- Write a sprite's mutable attributes back, keeping id and tree
structure. -/
def setAttrs (sp : Sprite I) (v : SpriteAttrs I) : Sprite I :=
  match sp with
  | .mk i _ _ _ _ _ _ ch idx _ =>
      .mk i v.anchor v.position v.rotation v.scale v.flip_x v.flip_y ch idx v.texture

mutual

/-- Embedding of a use of `Sprite::child_mut` whose resulting `&mut Sprite`
is mutated: locate the target exactly as `child_mut` does, apply `f` to its
attributes in place, and return the updated tree with `f`'s second result. -/
def modifyChild {β : Type} (sp : Sprite I) (i : Nat)
    (f : SpriteAttrs I → SpriteAttrs I × β) : Option (Sprite I × β) :=
  match sp with
  | .mk si a p r s fx fy ch idx t =>
      match lookupIdx idx i with
      | some j =>
          match ch[j]? with
          | some c =>
              let (v, b) := f (getAttrs c)
              some (.mk si a p r s fx fy (ch.set j (setAttrs c v)) idx t, b)
          | none => none
      | none =>
          match modifyChildList ch i f with
          | some (ch2, b) => some (.mk si a p r s fx fy ch2 idx t, b)
          | none => none

/-- The recursive scan of `modifyChild` over a children list. -/
def modifyChildList {β : Type} (l : List (Sprite I)) (i : Nat)
    (f : SpriteAttrs I → SpriteAttrs I × β) : Option (List (Sprite I) × β) :=
  match l with
  | [] => none
  | c :: rest =>
      match modifyChild c i f with
      | some (c2, b) => some (c2 :: rest, b)
      | none =>
          match modifyChildList rest i f with
          | some (rest2, b) => some (c :: rest2, b)
          | none => none

end

/-- The entity's local transform built by `Sprite::draw`:
`parent ∘ translate(position) ∘ rotate(rotation°) ∘ scale(scale)`, in that
order. `cosd`/`sind` give the backend's cosine/sine of an angle in
degrees. -/
def localTransform [ImageSize I] (cosd sind : ℚ → ℚ) (c : Aff) (sp : Sprite I) : Aff :=
  ((c.mul (Aff.transA sp.position.1 sp.position.2)).mul
    (Aff.rotA (cosd sp.rotation) (sind sp.rotation))).mul
      (Aff.scaleA sp.scale.1 sp.scale.2)

mutual

/-- `Sprite::draw`: compute the anchor offset, build the local transform,
build the draw rectangle under it, apply the flip corrections, issue the
image draw call, then recurse into the children passing this entity's
composed transform. The backend calls are collected as a `DrawCmd` list in
issue order. -/
def draw [ImageSize I] (cosd sind : ℚ → ℚ) (sp : Sprite I) (c : Aff) : List (DrawCmd I) :=
  match sp with
  | .mk _ an p r s fx fy ch _ t =>
    let (w0, h0) := ImageSize.get_size t
    let w : ℚ := w0
    let h : ℚ := h0
    let anchor : ℚ × ℚ := (an.1 * w, an.2 * h)
    let transformed := ((c.mul (Aff.transA p.1 p.2)).mul
      (Aff.rotA (cosd r) (sind r))).mul (Aff.scaleA s.1 s.2)
    let model := transformed
    let model := if fx then (model.mul (Aff.transA (w - 2 * anchor.1) 0)).mul Aff.flipH else model
    let model := if fy then (model.mul (Aff.transA 0 (h - 2 * anchor.2))).mul Aff.flipV else model
    ({ transform := model, rect := (-anchor.1, -anchor.2, w, h), texture := t }
      : DrawCmd I) :: drawList cosd sind ch transformed

/-- The `for child in self.children.iter()` loop of `Sprite::draw`. -/
def drawList [ImageSize I] (cosd sind : ℚ → ℚ) (l : List (Sprite I)) (c : Aff) : List (DrawCmd I) :=
  match l with
  | [] => []
  | ch :: rest => draw cosd sind ch c ++ drawList cosd sind rest c

end

/-- `Sprite::bounding_box`: axis-aligned rectangle
`[position − anchor·scaledSize, textureSize·scale]` in the entity's own
local space. -/
def bounding_box [ImageSize I] (sp : Sprite I) : ℚ × ℚ × ℚ × ℚ :=
  let (w0, h0) := ImageSize.get_size sp.texture
  let w : ℚ := (w0 : ℚ) * sp.scale.1
  let h : ℚ := (h0 : ℚ) * sp.scale.2
  (sp.position.1 - sp.anchor.1 * w, sp.position.2 - sp.anchor.2 * h, w, h)

end Sprite

/-- The scene (`Scene<I>` from `src/scene.rs`): root-level children with
their direct-child index, plus the `running` table mapping an entity id to
its ordered running (behavior-state, action-state) pairs. Parametrized
over the texture type `I`, the external evaluator's behavior-state type
`BSt` and the action continuation data type `A`. -/
structure Scene (I BSt A : Type) : Type where
  children : List (Sprite I)
  children_index : List (Nat × Nat)
  running : List (Nat × List (BSt × ActionState A))

/-- The external collaborators of the scheduler: `State::new` and
`State::update` of the behavior evaluator (`event` crate) and
`Action::to_state` / `ActionState::update` of the action module. The
evaluator's `update` takes the leaf invoker and threads the closure's
captured mutable state (the pair's action state and the target sprite's
attributes), returning the updated behavior state, the top-level status
and the remaining time. -/
structure SceneExt (I E Beh BSt Act A : Type) : Type where
  stateNew : Beh → BSt
  toState : Act → SpriteAttrs I → ActionState A
  stateUpdate : ActionState A → SpriteAttrs I → ℚ →
    ActionState A × Status × ℚ × SpriteAttrs I
  behUpdate : BSt → E →
    (ℚ → Act → ActionState A × SpriteAttrs I →
      (Status × ℚ) × (ActionState A × SpriteAttrs I)) →
    ActionState A × SpriteAttrs I →
    (BSt × Status × ℚ) × (ActionState A × SpriteAttrs I)

section SceneOps

variable {I E Beh BSt Act A : Type}

/-- The leaf-invoker closure of `Scene::update`: on `EmptyState`, first
bind the action to the target's current state via `to_state`; then advance
the bound state by `dt`, writing the new action state and the mutated
target attributes back into the captured cell. -/
def leafStep (ext : SceneExt I E Beh BSt Act A) (dt : ℚ) (action : Act) :
    ActionState A × SpriteAttrs I → (Status × ℚ) × (ActionState A × SpriteAttrs I) :=
  fun cell =>
    let (s, sprite) := cell
    let state :=
      match s with
      | .EmptyState => ext.toState action sprite
      | _ => s
    let (state2, status, remain, sprite2) := ext.stateUpdate state sprite dt
    ((status, remain), (state2, sprite2))

/-- `Scene::new`. -/
def Scene.new : Scene I BSt A :=
  { children := [], children_index := [], running := [] }

/-- `Scene::add_child`: append the sprite to the root children, record its
id in the scene's index, return the updated scene with the sprite's id. -/
def Scene.add_child (sc : Scene I BSt A) (sprite : Sprite I) : Scene I BSt A × Nat :=
  ({ sc with
      children := sc.children ++ [sprite],
      children_index :=
        mapInsert sc.children_index sprite.id ((sc.children ++ [sprite]).length - 1) },
   sprite.id)

/-- `Scene::child`: local index first, then depth-first scan of the root
children via `Sprite::child`. -/
def Scene.child (sc : Scene I BSt A) (i : Nat) : Option (Sprite I) :=
  match lookupIdx sc.children_index i with
  | some j => sc.children[j]?
  | none => Sprite.childList sc.children i

/-- `Scene::child_mut`, embedded as the lookup it performs. -/
def Scene.child_mut (sc : Scene I BSt A) (i : Nat) : Option (Sprite I) :=
  match lookupIdx sc.children_index i with
  | some j => sc.children[j]?
  | none => Sprite.childMutList sc.children i

/-- Embedding of a use of `Scene::child_mut` whose resulting `&mut Sprite`
is mutated in place (as in `Scene::update`). -/
def Scene.modifyChild {β : Type} (sc : Scene I BSt A) (i : Nat)
    (f : SpriteAttrs I → SpriteAttrs I × β) : Option (Scene I BSt A × β) :=
  match lookupIdx sc.children_index i with
  | some j =>
      match sc.children[j]? with
      | some c =>
          let (v, b) := f (Sprite.getAttrs c)
          some ({ sc with children := sc.children.set j (Sprite.setAttrs c v) }, b)
      | none => none
  | none =>
      match Sprite.modifyChildList sc.children i f with
      | some (ch2, b) => some ({ sc with children := ch2 }, b)
      | none => none

/-- `Scene::draw`: draw every root child under the given transform. -/
def Scene.draw [ImageSize I] (cosd sind : ℚ → ℚ) (sc : Scene I BSt A) (c : Aff) :
    List (DrawCmd I) :=
  Sprite.drawList cosd sind sc.children c

/-- `HashMap::find_or_insert_with(k, Vec::new)` followed by a push:
append the pair to the key's list, creating the binding if absent. -/
def runPush {P : Type} (l : List (Nat × List P)) (k : Nat) (p : P) :
    List (Nat × List P) :=
  match l with
  | [] => [(k, [p])]
  | (k2, v) :: rest =>
      if k2 = k then (k2, v ++ [p]) :: rest else (k2, v) :: runPush rest k p

/-- `Scene::run_action`: append a freshly constructed
`(State::new(action), EmptyState)` pair to the entity's running list. -/
def Scene.run_action (ext : SceneExt I E Beh BSt Act A) (sc : Scene I BSt A)
    (sprite_id : Nat) (action : Beh) : Scene I BSt A :=
  { sc with running := runPush sc.running sprite_id (ext.stateNew action, .EmptyState) }

/-- Processing of one running pair in `Scene::update`: resolve the target
by `child_mut(id)` (`.unwrap()` panics — embedded as `none` — when the id
does not resolve), run the evaluator with the leaf invoker over the
captured (action state, target attributes) cell, and write the mutated
attributes back into the tree. -/
def runPair (ext : SceneExt I E Beh BSt Act A) (e : E) (a : BSt) (s : ActionState A)
    (sc : Scene I BSt A) (i : Nat) :
    Option (Scene I BSt A × BSt × ActionState A × Status) :=
  Scene.modifyChild sc i (fun sprite =>
    let ((a2, status, _), (s2, sprite2)) := ext.behUpdate a e (leafStep ext) (s, sprite)
    (sprite2, (a2, s2, status)))

/-- The inner loop of `Scene::update` over one entity's pairs: each pair is
advanced; it is pushed onto `new_actions` (the accumulator) with its
updated states exactly when the reported status is `Running`. -/
def stepPairs (ext : SceneExt I E Beh BSt Act A) (e : E) (i : Nat)
    (sc : Scene I BSt A) (acc : List (BSt × ActionState A)) :
    List (BSt × ActionState A) → Option (Scene I BSt A × List (BSt × ActionState A))
  | [] => some (sc, acc)
  | (a, s) :: rest =>
      match runPair ext e a s sc i with
      | none => none
      | some (sc2, a2, s2, status) =>
          stepPairs ext e i sc2
            (if status = Status.Running then acc ++ [(a2, s2)] else acc) rest

/-- The outer loop of `Scene::update` over the snapshotted `running`
table: the surviving pairs of an entity are inserted into the rebuilt
table only when there is at least one (`new_actions.len() > 0`). -/
def stepEntities (ext : SceneExt I E Beh BSt Act A) (e : E) (sc : Scene I BSt A) :
    List (Nat × List (BSt × ActionState A)) → Option (Scene I BSt A)
  | [] => some sc
  | (i, actions) :: rest =>
      match stepPairs ext e i sc [] actions with
      | none => none
      | some (sc2, newActions) =>
          stepEntities ext e
            (if newActions.length > 0
             then { sc2 with running := mapInsert sc2.running i newActions }
             else sc2) rest

/-- `Scene::update`: snapshot the `running` table, replace it with an
empty one, and reprocess every entry; `none` models the Rust panic on an
unresolvable target id. -/
def Scene.update (ext : SceneExt I E Beh BSt Act A) (sc : Scene I BSt A) (e : E) :
    Option (Scene I BSt A) :=
  stepEntities ext e { sc with running := [] } sc.running

end SceneOps

namespace Sprite

variable {I : Type}

/-- The sprite's own draw call of `Sprite::draw` (the head of the issued
command list), written with the accessors: the local transform, the flip
corrections, and the rectangle `[-anchorOffset, textureSize]`. -/
def drawHead [ImageSize I] (cosd sind : ℚ → ℚ) (sp : Sprite I) (c : Aff) : DrawCmd I :=
  let w : ℚ := (ImageSize.get_size sp.texture).1
  let h : ℚ := (ImageSize.get_size sp.texture).2
  let ax : ℚ := sp.anchor.1 * w
  let ay : ℚ := sp.anchor.2 * h
  let transformed := localTransform cosd sind c sp
  let m1 := if sp.flip_x then (transformed.mul (Aff.transA (w - 2 * ax) 0)).mul Aff.flipH
            else transformed
  let m2 := if sp.flip_y then (m1.mul (Aff.transA 0 (h - 2 * ay))).mul Aff.flipV else m1
  { transform := m2, rect := (-ax, -ay, w, h), texture := sp.texture }

/-- Index consistency of one tree node: every index binding points at the
direct child holding that id (soundness), and every direct child's id is
bound (completeness). This is the invariant `add_child` maintains. -/
def wfIdx (ch : List (Sprite I)) (idx : List (Nat × Nat)) : Bool :=
  idx.all (fun kv =>
    match ch[kv.2]? with
    | some c => c.id == kv.1
    | none => false)
  && ch.all (fun c => (lookupIdx idx c.id).isSome)

mutual

/-- Well-formedness of a sprite tree: index consistency at every node. -/
def wf : Sprite I → Bool
  | .mk _ _ _ _ _ _ _ ch idx _ => wfIdx ch idx && wfList ch

/-- Well-formedness of every tree in a list. -/
def wfList : List (Sprite I) → Bool
  | [] => true
  | c :: rest => wf c && wfList rest

end

mutual

/-- All nodes of a sprite tree (the sprite itself and every descendant),
in depth-first order. -/
def subtrees : Sprite I → List (Sprite I)
  | .mk i a p r s fx fy ch idx t =>
      .mk i a p r s fx fy ch idx t :: subtreesList ch

/-- All nodes of every tree in a list. -/
def subtreesList : List (Sprite I) → List (Sprite I)
  | [] => []
  | c :: rest => subtrees c ++ subtreesList rest

end

/-- The ids present in a sprite tree. -/
def ids (sp : Sprite I) : List Nat := (subtrees sp).map id

end Sprite

section SceneWf

variable {I BSt A : Type}

/-- Well-formedness of a scene: index consistency of the root level and of
every sprite tree below it. -/
def Scene.wf (sc : Scene I BSt A) : Bool :=
  Sprite.wfIdx sc.children sc.children_index && Sprite.wfList sc.children

/-- All entities of the scene tree. -/
def Scene.sprites (sc : Scene I BSt A) : List (Sprite I) :=
  Sprite.subtreesList sc.children

/-- The ids present anywhere in the scene tree. -/
def Scene.ids (sc : Scene I BSt A) : List Nat :=
  (sc.sprites).map Sprite.id

end SceneWf

/-- Texture model for concrete instances: the texture is its own pixel
size. -/
instance : ImageSize (Nat × Nat) := ⟨fun p => p⟩

/-! Concrete instances used to evaluate the embedding on closed inputs. -/

/-- Cosine table for concrete draws: rotation 0, cosine 1. -/
def qOne : ℚ → ℚ := fun _ => 1

/-- Sine table for concrete draws: rotation 0, sine 0. -/
def qZero : ℚ → ℚ := fun _ => 0

/-- A 64×64 sprite with id 7. -/
def sprite7 : Sprite (Nat × Nat) := Sprite.from_texture 7 (64, 64)

/-- A 32×32 sprite with id 8. -/
def sprite8 : Sprite (Nat × Nat) := Sprite.from_texture 8 (32, 32)

/-- `sprite7` with `sprite8` nested inside it via `add_child`. -/
def sprite78 : Sprite (Nat × Nat) := (sprite7.add_child sprite8).1

/-- A scene holding the two-level tree `sprite78`. -/
def sceneNested : Scene (Nat × Nat) Unit Unit := (Scene.new.add_child sprite78).1

/-- A scene holding the single sprite `sprite7`. -/
def sceneOne : Scene (Nat × Nat) Unit Unit := (Scene.new.add_child sprite7).1

/-- External collaborators whose action reports `Success` on every
invocation; the evaluator invokes the leaf once with `dt = 1` and reports
the leaf's status. -/
def extSuccess : SceneExt (Nat × Nat) Unit Unit Unit Unit Unit :=
  { stateNew := fun _ => ()
    toState := fun _ _ => .Bound ()
    stateUpdate := fun s v _ => (s, .Success, 0, v)
    behUpdate := fun b _ leaf cell =>
      let ((st, r), cell2) := leaf 1 () cell
      ((b, st, r), cell2) }

/-- Like `extSuccess` but the action reports `Running` forever. -/
def extRunning : SceneExt (Nat × Nat) Unit Unit Unit Unit Unit :=
  { extSuccess with stateUpdate := fun s v _ => (s, .Running, 0, v) }

/-- A scene whose only running pair targets id 99, which is not in the
(empty) tree. -/
def sceneMissing : Scene (Nat × Nat) Unit Unit :=
  Scene.run_action extSuccess Scene.new 99 ()

/-- `sceneOne` with one running pair for the present id 7. -/
def sceneOnePair : Scene (Nat × Nat) Unit Unit :=
  Scene.run_action extRunning sceneOne 7 ()

/-- `sceneOne` with one running pair for the absent id 42. -/
def sceneMissing2 : Scene (Nat × Nat) Unit Unit :=
  Scene.run_action extRunning sceneOne 42 ()

/-- External collaborators whose evaluator reports `Running` exactly when
its behavior state is `true`, letting two pairs on one entity terminate
independently. -/
def extMix : SceneExt (Nat × Nat) Unit Unit Bool Unit Unit :=
  { stateNew := fun _ => true
    toState := fun _ _ => .Bound ()
    stateUpdate := fun s v _ => (s, .Success, 0, v)
    behUpdate := fun b _ leaf cell =>
      let ((_, r), cell2) := leaf 1 () cell
      ((b, if b then Status.Running else Status.Success, r), cell2) }

/-- A scene holding `sprite7`, typed for `extMix`. -/
def sceneOneB : Scene (Nat × Nat) Bool Unit := (Scene.new.add_child sprite7).1

/-- A 32×32 child sprite at position (5, 6) for the transform-composition
instance. -/
def c7child : Sprite (Nat × Nat) := (Sprite.from_texture 2 (32, 32)).set_position 5 6

/-- A 64×64 parent at position (10, 20) holding `c7child`. -/
def c7parent : Sprite (Nat × Nat) :=
  (((Sprite.from_texture 1 (64, 64)).set_position 10 20).add_child c7child).1

/-- A 64×64 sprite with `flip_x` set. -/
def c8sprite : Sprite (Nat × Nat) := (Sprite.from_texture 3 (64, 64)).set_flip_x true


theorem Aff.apply_mul (m n : Aff) (p : ℚ × ℚ) :
    (m.mul n).apply p = m.apply (n.apply p) := by
  simp [Aff.apply, Aff.mul]
  constructor <;> ring

theorem Aff.mul_assoc (m n k : Aff) : (m.mul n).mul k = m.mul (n.mul k) := by
  simp [Aff.mul]
  refine ⟨?_, ?_, ?_, ?_, ?_, ?_⟩ <;> ring

theorem Aff.mul_ident (m : Aff) : m.mul Aff.ident = m := by
  simp [Aff.mul, Aff.ident]

theorem Aff.ident_mul (m : Aff) : Aff.ident.mul m = m := by
  simp [Aff.mul, Aff.ident]

theorem Sprite.draw_cons {I : Type} [ImageSize I] (cosd sind : ℚ → ℚ) (sp : Sprite I) (c : Aff) :
    Sprite.draw cosd sind sp c =
      Sprite.drawHead cosd sind sp c ::
        Sprite.drawList cosd sind sp.children (Sprite.localTransform cosd sind c sp) := by
  cases sp with
  | mk i a p r s fx fy ch idx t =>
      simp [Sprite.draw, Sprite.drawHead, Sprite.localTransform, Sprite.anchor, Sprite.position,
        Sprite.rotation, Sprite.scale, Sprite.flip_x, Sprite.flip_y, Sprite.children,
        Sprite.texture]

/-- Claim C10: every entity constructed via `from_texture` starts with anchor
(0.5, 0.5), position (0, 0), rotation 0, scale (1, 1), `flip_x` and `flip_y`
false, no children, an empty child index, the given texture, and the freshly
generated id it was created with. -/
theorem c10_from_texture_defaults {I : Type} (fresh_id : Nat) (tex : I) :
    (Sprite.from_texture fresh_id tex).id = fresh_id ∧
    (Sprite.from_texture fresh_id tex).anchor = (1/2, 1/2) ∧
    (Sprite.from_texture fresh_id tex).position = (0, 0) ∧
    (Sprite.from_texture fresh_id tex).rotation = 0 ∧
    (Sprite.from_texture fresh_id tex).scale = (1, 1) ∧
    (Sprite.from_texture fresh_id tex).flip_x = false ∧
    (Sprite.from_texture fresh_id tex).flip_y = false ∧
    (Sprite.from_texture fresh_id tex).children = [] ∧
    (Sprite.from_texture fresh_id tex).children_index = [] ∧
    (Sprite.from_texture fresh_id tex).texture = tex := by
  simp [Sprite.from_texture, Sprite.id, Sprite.anchor, Sprite.position, Sprite.rotation,
    Sprite.scale, Sprite.flip_x, Sprite.flip_y, Sprite.children, Sprite.children_index,
    Sprite.texture]

/-- Claim C9: `bounding_box()` returns the axis-aligned rectangle
`[position − anchor · (textureSize · scale), textureSize · scale]`; it is
unchanged by `set_rotation` and by adding children; and for a 64×64 texture
with anchor (0.5, 0.5), position (100, 100), rotation 0 and scale (1, 1) it
returns [68, 68, 64, 64]. -/
theorem c9_bounding_box {I : Type} [ImageSize I] :
    (∀ sp : Sprite I,
        Sprite.bounding_box sp =
          (sp.position.1 - sp.anchor.1 * (((ImageSize.get_size sp.texture).1 : ℚ) * sp.scale.1),
           sp.position.2 - sp.anchor.2 * (((ImageSize.get_size sp.texture).2 : ℚ) * sp.scale.2),
           ((ImageSize.get_size sp.texture).1 : ℚ) * sp.scale.1,
           ((ImageSize.get_size sp.texture).2 : ℚ) * sp.scale.2)) ∧
    (∀ (sp : Sprite I) (r : ℚ),
        Sprite.bounding_box (sp.set_rotation r) = Sprite.bounding_box sp) ∧
    (∀ sp c : Sprite I,
        Sprite.bounding_box (sp.add_child c).1 = Sprite.bounding_box sp) ∧
    Sprite.bounding_box ((Sprite.from_texture 1 ((64, 64) : Nat × Nat)).set_position 100 100)
      = (68, 68, 64, 64) := by
  refine ⟨?_, ?_, ?_, ?_⟩
  · intro sp
    cases sp with
    | mk i a p r s fx fy ch idx t =>
        simp [Sprite.bounding_box, Sprite.position, Sprite.anchor, Sprite.scale, Sprite.texture]
  · intro sp r
    cases sp with
    | mk i a p r0 s fx fy ch idx t =>
        simp [Sprite.bounding_box, Sprite.set_rotation, Sprite.position, Sprite.anchor,
          Sprite.scale, Sprite.texture]
  · intro sp c
    cases sp with
    | mk i a p r s fx fy ch idx t =>
        simp [Sprite.bounding_box, Sprite.add_child, Sprite.position, Sprite.anchor,
          Sprite.scale, Sprite.texture]
  · simp [Sprite.bounding_box, Sprite.from_texture, Sprite.set_position, Sprite.position,
      Sprite.anchor, Sprite.scale, Sprite.texture, ImageSize.get_size]
    norm_num

/-- Claim C8: in `draw`, the draw rectangle spans `[-anchorOffset,
textureSize]` regardless of the flips (the flips are applied after the
rectangle is built and do not alter it); when `flip_x` is set the built
transform is post-composed with exactly translate(textureSize.x − 2 ·
anchorOffset.x, 0) then a horizontal mirror, symmetrically for `flip_y`; and
each flip factor moves only its own axis: the flip-x factor maps (x, y) to
(w − 2·ax − x, y) and the flip-y factor maps (x, y) to (x, h − 2·ay − y). -/
theorem c8_flip_handling {I : Type} [ImageSize I] (cosd sind : ℚ → ℚ) (sp : Sprite I) (c : Aff)
    (w h ax ay : ℚ)
    (hw : w = ((ImageSize.get_size sp.texture).1 : ℚ))
    (hh : h = ((ImageSize.get_size sp.texture).2 : ℚ))
    (hax : ax = sp.anchor.1 * w) (hay : ay = sp.anchor.2 * h) :
    ((Sprite.draw cosd sind sp c).head?).map DrawCmd.rect = some (-ax, -ay, w, h) ∧
    ((Sprite.draw cosd sind sp c).head?).map DrawCmd.transform =
      some ((Sprite.localTransform cosd sind c sp).mul
        ((if sp.flip_x then (Aff.transA (w - 2 * ax) 0).mul Aff.flipH else Aff.ident).mul
         (if sp.flip_y then (Aff.transA 0 (h - 2 * ay)).mul Aff.flipV else Aff.ident))) ∧
    (∀ x y : ℚ, ((Aff.transA (w - 2 * ax) 0).mul Aff.flipH).apply (x, y)
        = (w - 2 * ax - x, y)) ∧
    (∀ x y : ℚ, ((Aff.transA 0 (h - 2 * ay)).mul Aff.flipV).apply (x, y)
        = (x, h - 2 * ay - y)) := by
  subst hw hh hax hay
  rw [Sprite.draw_cons]
  refine ⟨?_, ?_, ?_, ?_⟩
  · simp [Sprite.drawHead]
  · simp only [List.head?_cons, Option.map_some, Sprite.drawHead]
    cases hx : sp.flip_x <;> cases hy : sp.flip_y <;>
      simp [Aff.mul_ident, Aff.ident_mul, Aff.mul_assoc]
  · intro x y
    simp [Aff.transA, Aff.flipH, Aff.scaleA, Aff.mul, Aff.apply]
    ring
  · intro x y
    simp [Aff.transA, Aff.flipV, Aff.scaleA, Aff.mul, Aff.apply]
    ring

/-- Claim C7: in `draw`, each entity's local transform is the parent
transform composed with translate(position), then rotate(rotation°), then
scale(scale), in that fixed order, and each child is drawn under this
entity's composed transform (not the parent's): for a two-level tree the
child's rendered origin (its draw transform applied to (0, 0)) equals
parent_transform ∘ child_local_transform applied to (0, 0). -/
theorem c7_transform_composition {I : Type} [ImageSize I] (cosd sind : ℚ → ℚ) (c : Aff)
    (p ch : Sprite I) (hch : p.children = [ch])
    (hfx : ch.flip_x = false) (hfy : ch.flip_y = false) :
    Sprite.draw cosd sind p c =
      Sprite.drawHead cosd sind p c ::
        Sprite.draw cosd sind ch (Sprite.localTransform cosd sind c p) ∧
    ((Sprite.draw cosd sind p c)[1]?).map (fun cmd => cmd.transform.apply (0, 0)) =
      some ((Sprite.localTransform cosd sind c p).apply
        ((((Aff.transA ch.position.1 ch.position.2).mul
            (Aff.rotA (cosd ch.rotation) (sind ch.rotation))).mul
            (Aff.scaleA ch.scale.1 ch.scale.2)).apply (0, 0))) := by
  have hstruct : Sprite.draw cosd sind p c =
      Sprite.drawHead cosd sind p c ::
        Sprite.draw cosd sind ch (Sprite.localTransform cosd sind c p) := by
    rw [Sprite.draw_cons, hch]
    simp [Sprite.drawList]
  refine ⟨hstruct, ?_⟩
  rw [hstruct, Sprite.draw_cons]
  simp only [List.getElem?_cons_succ, List.getElem?_cons_zero, Option.map_some]
  simp only [Sprite.drawHead]
  simp [hfx, hfy, Sprite.localTransform, Aff.mul_assoc, Aff.apply_mul]

mutual

theorem childEqMutAux {I : Type} (sp : Sprite I) (i : Nat) :
    Sprite.child sp i = Sprite.child_mut sp i := by
  cases sp with
  | mk sid a p r s fx fy ch idx t =>
      rw [Sprite.child, Sprite.child_mut]
      cases lookupIdx idx i with
      | some j => rfl
      | none => exact childListEqMutAux ch i

theorem childListEqMutAux {I : Type} (l : List (Sprite I)) (i : Nat) :
    Sprite.childList l i = Sprite.childMutList l i := by
  cases l with
  | nil => rfl
  | cons c rest =>
      rw [Sprite.childList, Sprite.childMutList, childEqMutAux c i]
      cases Sprite.child_mut c i with
      | some r => rfl
      | none => exact childListEqMutAux rest i

end

/-- Claim C5: `child(id)` and `child_mut(id)` behave identically save for
reference mutability: on every tree and every id they perform the same
index-then-depth-first search and return the same result, on both `Sprite`
and `Scene`. -/
theorem c5_child_eq_child_mut {I BSt A : Type} :
    (∀ (sp : Sprite I) (i : Nat), Sprite.child sp i = Sprite.child_mut sp i) ∧
    (∀ (sc : Scene I BSt A) (i : Nat), Scene.child sc i = Scene.child_mut sc i) := by
  refine ⟨childEqMutAux, ?_⟩
  intro sc i
  rw [Scene.child, Scene.child_mut]
  cases lookupIdx sc.children_index i with
  | some j => rfl
  | none => exact childListEqMutAux sc.children i

theorem lookupIdx_mem {β : Type} {l : List (Nat × β)} {k : Nat} {v : β}
    (h : lookupIdx l k = some v) : (k, v) ∈ l := by
  induction l with
  | nil => simp [lookupIdx] at h
  | cons kv rest ih =>
      obtain ⟨k2, v2⟩ := kv
      rw [lookupIdx] at h
      by_cases hk : k2 = k
      · subst hk
        rw [if_pos rfl] at h
        injection h with h2
        subst h2
        exact List.mem_cons_self _ _
      · rw [if_neg hk] at h
        exact List.mem_cons_of_mem _ (ih h)

theorem wfIdx_sound {I : Type} {ch : List (Sprite I)} {idx : List (Nat × Nat)}
    (h : Sprite.wfIdx ch idx = true) {k j : Nat} (hk : lookupIdx idx k = some j) :
    ∃ c, ch[j]? = some c ∧ c.id = k := by
  have hmem := lookupIdx_mem hk
  simp only [Sprite.wfIdx, Bool.and_eq_true, List.all_eq_true] at h
  have h2 := h.1 (k, j) hmem
  dsimp only at h2
  cases hc : ch[j]? with
  | none => rw [hc] at h2; simp at h2
  | some c =>
      rw [hc] at h2
      simp only [beq_iff_eq] at h2
      exact ⟨c, rfl, h2⟩

theorem wfIdx_complete {I : Type} {ch : List (Sprite I)} {idx : List (Nat × Nat)}
    (h : Sprite.wfIdx ch idx = true) {c : Sprite I} (hc : c ∈ ch) :
    (lookupIdx idx c.id).isSome = true := by
  simp only [Sprite.wfIdx, Bool.and_eq_true, List.all_eq_true] at h
  exact h.2 c hc

theorem mem_of_getElem? {α : Type} {l : List α} {j : Nat} {c : α} (h : l[j]? = some c) :
    c ∈ l := by
  obtain ⟨hj, rfl⟩ := List.getElem?_eq_some_iff.1 h
  exact List.getElem_mem hj

theorem subtrees_eq {I : Type} (sp : Sprite I) :
    Sprite.subtrees sp = sp :: Sprite.subtreesList sp.children := by
  cases sp with
  | mk i a p r s fx fy ch idx t => rw [Sprite.subtrees]; simp [Sprite.children]

theorem mem_subtreesList_iff {I : Type} {l : List (Sprite I)} {x : Sprite I} :
    x ∈ Sprite.subtreesList l ↔ ∃ c ∈ l, x ∈ Sprite.subtrees c := by
  induction l with
  | nil => simp [Sprite.subtreesList]
  | cons c rest ih => simp [Sprite.subtreesList, ih]

theorem self_mem_subtrees {I : Type} (sp : Sprite I) : sp ∈ Sprite.subtrees sp := by
  rw [subtrees_eq]; exact List.mem_cons_self _ _

theorem mem_subtreesList_of_mem {I : Type} {l : List (Sprite I)} {c : Sprite I}
    (hc : c ∈ l) : c ∈ Sprite.subtreesList l :=
  mem_subtreesList_iff.2 ⟨c, hc, self_mem_subtrees c⟩

theorem subtrees_sublist {I : Type} {l : List (Sprite I)} {c : Sprite I} (hc : c ∈ l) :
    List.Sublist (Sprite.subtrees c) (Sprite.subtreesList l) := by
  induction l with
  | nil => cases hc
  | cons d rest ih =>
      rw [Sprite.subtreesList]
      rcases List.mem_cons.1 hc with h | h
      · subst h; exact List.sublist_append_left _ _
      · exact (ih h).trans (List.sublist_append_right _ _)

theorem wfList_iff {I : Type} {l : List (Sprite I)} :
    Sprite.wfList l = true ↔ ∀ c ∈ l, Sprite.wf c = true := by
  induction l with
  | nil => simp [Sprite.wfList]
  | cons c rest ih => simp [Sprite.wfList, ih]

mutual

theorem childNoneAux {I : Type} (sp : Sprite I) (i : Nat) (hwf : Sprite.wf sp = true)
    (hno : i ∉ (Sprite.subtrees sp).map Sprite.id) : Sprite.child sp i = none := by
  cases sp with
  | mk sid a p r s fx fy ch idx t =>
      rw [Sprite.wf, Bool.and_eq_true] at hwf
      rw [Sprite.child]
      cases hl : lookupIdx idx i with
      | some j =>
          exfalso
          obtain ⟨c, hc, hcid⟩ := wfIdx_sound hwf.1 hl
          apply hno
          rw [subtrees_eq]
          simp only [Sprite.children, List.map_cons, List.mem_cons]
          right
          exact List.mem_map.2 ⟨c, mem_subtreesList_of_mem (mem_of_getElem? hc), hcid⟩
      | none =>
          apply childListNoneAux ch i hwf.2
          intro hmem
          apply hno
          rw [subtrees_eq]
          simp only [Sprite.children, List.map_cons, List.mem_cons]
          right
          exact hmem

theorem childListNoneAux {I : Type} (l : List (Sprite I)) (i : Nat)
    (hwf : Sprite.wfList l = true)
    (hno : i ∉ (Sprite.subtreesList l).map Sprite.id) : Sprite.childList l i = none := by
  cases l with
  | nil => rw [Sprite.childList]
  | cons c rest =>
      rw [Sprite.wfList, Bool.and_eq_true] at hwf
      rw [Sprite.subtreesList] at hno
      simp only [List.map_append, List.mem_append, not_or] at hno
      rw [Sprite.childList, childNoneAux c i hwf.1 hno.1]
      exact childListNoneAux rest i hwf.2 hno.2

end

mutual

theorem childFindsAux {I : Type} (sp : Sprite I) (e : Sprite I) (hwf : Sprite.wf sp = true)
    (hnd : ((Sprite.subtrees sp).map Sprite.id).Nodup)
    (he : e ∈ Sprite.subtreesList sp.children) :
    Sprite.child sp e.id = some e := by
  cases sp with
  | mk sid a p r s fx fy ch idx t =>
      rw [Sprite.wf, Bool.and_eq_true] at hwf
      rw [subtrees_eq] at hnd
      simp only [Sprite.children, List.map_cons, List.nodup_cons] at hnd
      simp only [Sprite.children] at he
      rw [Sprite.child]
      cases hl : lookupIdx idx e.id with
      | some j =>
          obtain ⟨c, hc, hcid⟩ := wfIdx_sound hwf.1 hl
          have hceq : c = e :=
            List.inj_on_of_nodup_map hnd.2
              (mem_subtreesList_of_mem (mem_of_getElem? hc)) he hcid
          show ch[j]? = some e
          rw [hc, hceq]
      | none =>
          apply childListFindsAux ch e hwf.2 hnd.2
          obtain ⟨c0, hc0, he0⟩ := mem_subtreesList_iff.1 he
          rw [subtrees_eq] at he0
          rcases List.mem_cons.1 he0 with h | h
          · exfalso
            have hcomp := wfIdx_complete hwf.1 hc0
            rw [← h, hl] at hcomp
            simp at hcomp
          · exact ⟨c0, hc0, h⟩

theorem childListFindsAux {I : Type} (l : List (Sprite I)) (e : Sprite I)
    (hwf : Sprite.wfList l = true)
    (hnd : ((Sprite.subtreesList l).map Sprite.id).Nodup)
    (he : ∃ c ∈ l, e ∈ Sprite.subtreesList c.children) :
    Sprite.childList l e.id = some e := by
  cases l with
  | nil =>
      exfalso
      obtain ⟨c0, hc0, _⟩ := he
      cases hc0
  | cons c rest =>
      rw [Sprite.wfList, Bool.and_eq_true] at hwf
      rw [Sprite.subtreesList] at hnd
      simp only [List.map_append] at hnd
      obtain ⟨nd1, nd2, disj⟩ := List.nodup_append.1 hnd
      obtain ⟨c0, hc0mem, he0⟩ := he
      rw [Sprite.childList]
      rcases List.mem_cons.1 hc0mem with h | h
      · subst h
        rw [childFindsAux c0 e hwf.1 nd1 he0]
      · have he1 : e ∈ Sprite.subtrees c0 := by
          rw [subtrees_eq]
          exact List.mem_cons_of_mem _ he0
        have hein : e ∈ Sprite.subtreesList rest := (subtrees_sublist h).subset he1
        have hnone : Sprite.child c e.id = none := by
          apply childNoneAux c e.id hwf.1
          intro hmem
          exact disj hmem (List.mem_map.2 ⟨e, hein, rfl⟩)
        rw [hnone]
        exact childListFindsAux rest e hwf.2 nd2 ⟨c0, h, he0⟩

end

/-- Claim C2: in a well-formed tree with distinct ids (the invariant
`add_child` maintains, see `wf_add_child` / `scene_wf_add_child`), `child(id)`
resolves every entity present anywhere in the tree — at any depth — to that
entity, and returns "not found" (`none`) for every id absent from the tree. -/
theorem c2_child_resolves {I BSt A : Type} (sc : Scene I BSt A)
    (hwf : Scene.wf sc = true) (hnd : (Scene.ids sc).Nodup) :
    (∀ e ∈ Scene.sprites sc, Scene.child sc e.id = some e) ∧
    (∀ i, i ∉ Scene.ids sc → Scene.child sc i = none) := by
  rw [Scene.wf, Bool.and_eq_true] at hwf
  rw [Scene.ids, Scene.sprites] at hnd
  constructor
  · intro e he
    rw [Scene.sprites] at he
    rw [Scene.child]
    cases hl : lookupIdx sc.children_index e.id with
    | some j =>
        obtain ⟨c, hc, hcid⟩ := wfIdx_sound hwf.1 hl
        have hceq : c = e :=
          List.inj_on_of_nodup_map hnd
            (mem_subtreesList_of_mem (mem_of_getElem? hc)) he hcid
        show sc.children[j]? = some e
        rw [hc, hceq]
    | none =>
        apply childListFindsAux sc.children e hwf.2 hnd
        obtain ⟨c0, hc0, he0⟩ := mem_subtreesList_iff.1 he
        rw [subtrees_eq] at he0
        rcases List.mem_cons.1 he0 with h | h
        · exfalso
          have hcomp := wfIdx_complete hwf.1 hc0
          rw [← h, hl] at hcomp
          simp at hcomp
        · exact ⟨c0, hc0, h⟩
  · intro i hno
    rw [Scene.ids, Scene.sprites] at hno
    rw [Scene.child]
    cases hl : lookupIdx sc.children_index i with
    | some j =>
        exfalso
        obtain ⟨c, hc, hcid⟩ := wfIdx_sound hwf.1 hl
        exact hno (List.mem_map.2 ⟨c, mem_subtreesList_of_mem (mem_of_getElem? hc), hcid⟩)
    | none => exact childListNoneAux sc.children i hwf.2 hno

theorem getElem?_isSome_iff {α : Type} {l : List α} {i : Nat} :
    l[i]?.isSome = true ↔ i < l.length := by
  rw [Option.isSome_iff_exists]
  constructor
  · rintro ⟨a, ha⟩
    exact (List.getElem?_eq_some_iff.1 ha).1
  · intro h
    exact ⟨l[i], List.getElem?_eq_some_iff.2 ⟨h, rfl⟩⟩

theorem setAttrs_getAttrs {I : Type} (sp : Sprite I) :
    Sprite.setAttrs sp (Sprite.getAttrs sp) = sp := by
  cases sp with
  | mk i a p r s fx fy ch idx t => rfl

theorem child_mut_setAttrs {I : Type} (c : Sprite I) (v : SpriteAttrs I) (j : Nat) :
    Sprite.child_mut (Sprite.setAttrs c v) j = Sprite.child_mut c j := by
  cases c with
  | mk i a p r s fx fy ch idx t => rw [Sprite.setAttrs, Sprite.child_mut, Sprite.child_mut]

theorem childMutList_set {I : Type} (l : List (Sprite I)) (j0 : Nat) (c : Sprite I)
    (v : SpriteAttrs I) (hc : l[j0]? = some c) (j : Nat) :
    Sprite.childMutList (l.set j0 (Sprite.setAttrs c v)) j = Sprite.childMutList l j := by
  induction l generalizing j0 with
  | nil => simp at hc
  | cons d rest ih =>
      cases j0 with
      | zero =>
          simp only [List.getElem?_cons_zero, Option.some.injEq] at hc
          subst hc
          rw [List.set_cons_zero, Sprite.childMutList, Sprite.childMutList,
            child_mut_setAttrs]
      | succ j1 =>
          simp only [List.getElem?_cons_succ] at hc
          rw [List.set_cons_succ, Sprite.childMutList, Sprite.childMutList, ih j1 hc]

theorem getElem?_isSome_of_length_eq {α : Type} {l2 l : List α} (h : l2.length = l.length)
    (j : Nat) : (l2[j]?).isSome = (l[j]?).isSome := by
  rcases Nat.lt_or_ge j l.length with hj | hj
  · rw [getElem?_isSome_iff.2 hj, getElem?_isSome_iff.2 (h ▸ hj)]
  · have h1 : l[j]? = none := List.getElem?_eq_none hj
    have h2 : l2[j]? = none := List.getElem?_eq_none (h ▸ hj)
    rw [h1, h2]

theorem getElem?_set_isSome {α : Type} (l : List α) (m j : Nat) (x : α) :
    ((l.set m x)[j]?).isSome = (l[j]?).isSome :=
  getElem?_isSome_of_length_eq (List.length_set l m x) j

mutual

theorem modifyIsSomeAux {I β : Type} (sp : Sprite I) (i : Nat)
    (f : SpriteAttrs I → SpriteAttrs I × β) :
    (Sprite.modifyChild sp i f).isSome = (Sprite.child_mut sp i).isSome := by
  cases sp with
  | mk sid a p r s fx fy ch idx t =>
      rw [Sprite.modifyChild, Sprite.child_mut]
      cases hl : lookupIdx idx i with
      | some j =>
          cases hc : ch[j]? with
          | some c => simp [hc]
          | none => simp [hc]
      | none =>
          have h := modifyListIsSomeAux ch i f
          cases hm : Sprite.modifyChildList ch i f with
          | some pr => rw [hm] at h; cases hcm : Sprite.childMutList ch i <;> rw [hcm] at h <;>
              simp_all
          | none => rw [hm] at h; cases hcm : Sprite.childMutList ch i <;> rw [hcm] at h <;>
              simp_all

theorem modifyListIsSomeAux {I β : Type} (l : List (Sprite I)) (i : Nat)
    (f : SpriteAttrs I → SpriteAttrs I × β) :
    (Sprite.modifyChildList l i f).isSome = (Sprite.childMutList l i).isSome := by
  cases l with
  | nil => rfl
  | cons c rest =>
      rw [Sprite.modifyChildList, Sprite.childMutList]
      have h := modifyIsSomeAux c i f
      cases hmc : Sprite.modifyChild c i f with
      | some pr =>
          rw [hmc] at h
          cases hcm : Sprite.child_mut c i with
          | some r => simp
          | none => rw [hcm] at h; simp at h
      | none =>
          rw [hmc] at h
          cases hcm : Sprite.child_mut c i with
          | some r => rw [hcm] at h; simp at h
          | none =>
              have h2 := modifyListIsSomeAux rest i f
              cases hml : Sprite.modifyChildList rest i f with
              | some pr2 =>
                  rw [hml] at h2
                  cases hcml : Sprite.childMutList rest i <;> rw [hcml] at h2 <;> simp_all
              | none =>
                  rw [hml] at h2
                  cases hcml : Sprite.childMutList rest i <;> rw [hcml] at h2 <;> simp_all

end

mutual

theorem modifyShapeAux {I β : Type} (sp : Sprite I) (i : Nat)
    (f : SpriteAttrs I → SpriteAttrs I × β) (sp2 : Sprite I) (b : β)
    (h : Sprite.modifyChild sp i f = some (sp2, b)) :
    ∀ j, (Sprite.child_mut sp2 j).isSome = (Sprite.child_mut sp j).isSome := by
  cases sp with
  | mk sid a p r s fx fy ch idx t =>
      rw [Sprite.modifyChild] at h
      cases hl : lookupIdx idx i with
      | some j0 =>
          simp only [hl] at h
          cases hc : ch[j0]? with
          | some c =>
              simp only [hc] at h
              rcases hfc : f (Sprite.getAttrs c) with ⟨v, b0⟩
              simp only [hfc, Option.some.injEq, Prod.mk.injEq] at h
              obtain ⟨hsp2, hb⟩ := h
              subst hsp2
              intro j
              rw [Sprite.child_mut, Sprite.child_mut]
              cases hlj : lookupIdx idx j with
              | some j1 => exact getElem?_set_isSome ch j0 j1 _
              | none => rw [childMutList_set ch j0 c _ hc j]
          | none => simp only [hc] at h; cases h
      | none =>
          simp only [hl] at h
          cases hm : Sprite.modifyChildList ch i f with
          | some pr =>
              obtain ⟨ch2, b2⟩ := pr
              simp only [hm, Option.some.injEq, Prod.mk.injEq] at h
              obtain ⟨hsp2, hb⟩ := h
              subst hsp2
              obtain ⟨hlen, hpt⟩ := modifyShapeListAux ch i f ch2 b2 hm
              intro j
              rw [Sprite.child_mut, Sprite.child_mut]
              cases hlj : lookupIdx idx j with
              | some j1 => exact getElem?_isSome_of_length_eq hlen j1
              | none => exact hpt j
          | none => simp only [hm] at h; cases h

theorem modifyShapeListAux {I β : Type} (l : List (Sprite I)) (i : Nat)
    (f : SpriteAttrs I → SpriteAttrs I × β) (l2 : List (Sprite I)) (b : β)
    (h : Sprite.modifyChildList l i f = some (l2, b)) :
    l2.length = l.length ∧
      ∀ j, (Sprite.childMutList l2 j).isSome = (Sprite.childMutList l j).isSome := by
  cases l with
  | nil => rw [Sprite.modifyChildList] at h; cases h
  | cons c rest =>
      rw [Sprite.modifyChildList] at h
      cases hmc : Sprite.modifyChild c i f with
      | some pr =>
          obtain ⟨c2, b2⟩ := pr
          simp only [hmc, Option.some.injEq, Prod.mk.injEq] at h
          obtain ⟨hl2, hb⟩ := h
          subst hl2
          refine ⟨by simp, ?_⟩
          intro j
          have hj := modifyShapeAux c i f c2 b2 hmc j
          rw [Sprite.childMutList, Sprite.childMutList]
          cases hc2 : Sprite.child_mut c2 j with
          | some r =>
              rw [hc2] at hj
              cases hcc : Sprite.child_mut c j with
              | some r2 => simp
              | none => rw [hcc] at hj; simp at hj
          | none =>
              rw [hc2] at hj
              cases hcc : Sprite.child_mut c j with
              | some r2 => rw [hcc] at hj; simp at hj
              | none => rfl
      | none =>
          simp only [hmc] at h
          cases hml : Sprite.modifyChildList rest i f with
          | some pr2 =>
              obtain ⟨rest2, b2⟩ := pr2
              simp only [hml, Option.some.injEq, Prod.mk.injEq] at h
              obtain ⟨hl2, hb⟩ := h
              subst hl2
              obtain ⟨hlen, hpt⟩ := modifyShapeListAux rest i f rest2 b2 hml
              refine ⟨by simp [hlen], ?_⟩
              intro j
              rw [Sprite.childMutList, Sprite.childMutList]
              cases hcc : Sprite.child_mut c j with
              | some r => rfl
              | none => exact hpt j
          | none => simp only [hml] at h; cases h

end

theorem child_mut_set_running {I BSt A : Type} (sc : Scene I BSt A)
    (r : List (Nat × List (BSt × ActionState A))) (j : Nat) :
    Scene.child_mut { sc with running := r } j = Scene.child_mut sc j := rfl

theorem sceneModifyIsSome {I BSt A β : Type} (sc : Scene I BSt A) (i : Nat)
    (f : SpriteAttrs I → SpriteAttrs I × β) :
    (Scene.modifyChild sc i f).isSome = (Scene.child_mut sc i).isSome := by
  rw [Scene.modifyChild, Scene.child_mut]
  cases hl : lookupIdx sc.children_index i with
  | some j =>
      cases hc : sc.children[j]? with
      | some c => simp [hc]
      | none => simp [hc]
  | none =>
      have h := modifyListIsSomeAux sc.children i f
      cases hm : Sprite.modifyChildList sc.children i f with
      | some pr => rw [hm] at h; cases hcm : Sprite.childMutList sc.children i <;>
          rw [hcm] at h <;> simp_all
      | none => rw [hm] at h; cases hcm : Sprite.childMutList sc.children i <;>
          rw [hcm] at h <;> simp_all

theorem sceneModifyPres {I BSt A β : Type} {sc sc2 : Scene I BSt A} {i : Nat}
    {f : SpriteAttrs I → SpriteAttrs I × β} {b : β}
    (h : Scene.modifyChild sc i f = some (sc2, b)) :
    sc2.running = sc.running ∧ sc2.children_index = sc.children_index ∧
      ∀ j, (Scene.child_mut sc2 j).isSome = (Scene.child_mut sc j).isSome := by
  rw [Scene.modifyChild] at h
  cases hl : lookupIdx sc.children_index i with
  | some j0 =>
      simp only [hl] at h
      cases hc : sc.children[j0]? with
      | some c =>
          simp only [hc] at h
          rcases hfc : f (Sprite.getAttrs c) with ⟨v, b0⟩
          simp only [hfc, Option.some.injEq, Prod.mk.injEq] at h
          obtain ⟨hsp2, hb⟩ := h
          subst hsp2
          refine ⟨rfl, rfl, ?_⟩
          intro j
          rw [Scene.child_mut, Scene.child_mut]
          cases hlj : lookupIdx sc.children_index j with
          | some j1 => exact getElem?_set_isSome sc.children j0 j1 _
          | none => rw [childMutList_set sc.children j0 c _ hc j]
      | none => simp only [hc] at h; cases h
  | none =>
      simp only [hl] at h
      cases hm : Sprite.modifyChildList sc.children i f with
      | some pr =>
          obtain ⟨ch2, b2⟩ := pr
          simp only [hm, Option.some.injEq, Prod.mk.injEq] at h
          obtain ⟨hsp2, hb⟩ := h
          subst hsp2
          obtain ⟨hlen, hpt⟩ := modifyShapeListAux sc.children i f ch2 b2 hm
          refine ⟨rfl, rfl, ?_⟩
          intro j
          rw [Scene.child_mut, Scene.child_mut]
          cases hlj : lookupIdx sc.children_index j with
          | some j1 => exact getElem?_isSome_of_length_eq hlen j1
          | none => exact hpt j
      | none => simp only [hm] at h; cases h

theorem runPair_isSome {I E Beh BSt Act A : Type} (ext : SceneExt I E Beh BSt Act A)
    (e : E) (a : BSt) (s : ActionState A) (sc : Scene I BSt A) (i : Nat) :
    (runPair ext e a s sc i).isSome = (Scene.child_mut sc i).isSome := by
  rw [runPair]
  exact sceneModifyIsSome sc i _

theorem runPair_pres {I E Beh BSt Act A : Type} {ext : SceneExt I E Beh BSt Act A}
    {e : E} {a : BSt} {s : ActionState A} {sc sc2 : Scene I BSt A} {i : Nat}
    {a2 : BSt} {s2 : ActionState A} {status : Status}
    (h : runPair ext e a s sc i = some (sc2, a2, s2, status)) :
    sc2.running = sc.running ∧ sc2.children_index = sc.children_index ∧
      ∀ j, (Scene.child_mut sc2 j).isSome = (Scene.child_mut sc j).isSome := by
  rw [runPair] at h
  exact sceneModifyPres h

theorem stepPairs_pres {I E Beh BSt Act A : Type} {ext : SceneExt I E Beh BSt Act A}
    {e : E} {i : Nat} (l : List (BSt × ActionState A)) {sc sc2 : Scene I BSt A}
    {acc kept : List (BSt × ActionState A)}
    (h : stepPairs ext e i sc acc l = some (sc2, kept)) :
    sc2.running = sc.running ∧ sc2.children_index = sc.children_index ∧
      ∀ j, (Scene.child_mut sc2 j).isSome = (Scene.child_mut sc j).isSome := by
  induction l generalizing sc acc with
  | nil =>
      rw [stepPairs] at h
      simp only [Option.some.injEq, Prod.mk.injEq] at h
      obtain ⟨h1, h2⟩ := h
      subst h1
      exact ⟨rfl, rfl, fun j => rfl⟩
  | cons pr rest ih =>
      obtain ⟨a, s⟩ := pr
      rw [stepPairs] at h
      cases hr : runPair ext e a s sc i with
      | none => simp only [hr] at h; cases h
      | some res =>
          obtain ⟨sc3, a2, s2, status⟩ := res
          simp only [hr] at h
          obtain ⟨hr1, hr2, hr3⟩ := runPair_pres hr
          obtain ⟨ih1, ih2, ih3⟩ := ih h
          exact ⟨ih1.trans hr1, ih2.trans hr2, fun j => (ih3 j).trans (hr3 j)⟩

theorem stepPairs_none {I E Beh BSt Act A : Type} (ext : SceneExt I E Beh BSt Act A)
    (e : E) (i : Nat) (sc : Scene I BSt A) (acc : List (BSt × ActionState A))
    {l : List (BSt × ActionState A)} (hl : l ≠ [])
    (hcm : Scene.child_mut sc i = none) :
    stepPairs ext e i sc acc l = none := by
  cases l with
  | nil => exact absurd rfl hl
  | cons pr rest =>
      obtain ⟨a, s⟩ := pr
      rw [stepPairs]
      have h := runPair_isSome ext e a s sc i
      rw [hcm] at h
      cases hrp : runPair ext e a s sc i with
      | some res => rw [hrp] at h; simp at h
      | none => rfl

theorem stepPairs_some {I E Beh BSt Act A : Type} (ext : SceneExt I E Beh BSt Act A)
    (e : E) (i : Nat) (l : List (BSt × ActionState A)) (sc : Scene I BSt A)
    (acc : List (BSt × ActionState A))
    (hcm : (Scene.child_mut sc i).isSome = true) :
    (stepPairs ext e i sc acc l).isSome = true := by
  induction l generalizing sc acc with
  | nil => rw [stepPairs]; rfl
  | cons pr rest ih =>
      obtain ⟨a, s⟩ := pr
      rw [stepPairs]
      have h := runPair_isSome ext e a s sc i
      rw [hcm] at h
      cases hrp : runPair ext e a s sc i with
      | none => rw [hrp] at h; simp at h
      | some res =>
          obtain ⟨sc3, a2, s2, status⟩ := res
          obtain ⟨_, _, hpt⟩ := runPair_pres hrp
          exact ih sc3 _ ((hpt i).trans hcm)

theorem stepEntities_none {I E Beh BSt Act A : Type} (ext : SceneExt I E Beh BSt Act A)
    (e : E) (entries : List (Nat × List (BSt × ActionState A))) (sc : Scene I BSt A)
    (hbad : ∃ p ∈ entries, p.2 ≠ [] ∧ Scene.child_mut sc p.1 = none) :
    stepEntities ext e sc entries = none := by
  induction entries generalizing sc with
  | nil =>
      obtain ⟨p, hp, _⟩ := hbad
      cases hp
  | cons en rest ih =>
      obtain ⟨i0, l0⟩ := en
      obtain ⟨p, hp, hne, hnone⟩ := hbad
      rw [stepEntities]
      rcases List.mem_cons.1 hp with hph | hph
      · have hne0 : l0 ≠ [] := by rw [hph] at hne; exact hne
        have hnone0 : Scene.child_mut sc i0 = none := by rw [hph] at hnone; exact hnone
        rw [stepPairs_none ext e i0 sc [] hne0 hnone0]
      · cases hsp : stepPairs ext e i0 sc [] l0 with
        | none => rfl
        | some res =>
            obtain ⟨sc3, na⟩ := res
            obtain ⟨_, _, hpt⟩ := stepPairs_pres l0 hsp
            have hnone3 : Scene.child_mut sc3 p.1 = none := by
              have := hpt p.1
              rw [hnone] at this
              cases ho : Scene.child_mut sc3 p.1 with
              | none => rfl
              | some c => rw [ho] at this; simp at this
            by_cases hlen : na.length > 0
            · simp only [hlen, if_pos]
              apply ih
              exact ⟨p, hph, hne, by rw [child_mut_set_running]; exact hnone3⟩
            · simp only [hlen, if_neg]
              exact ih _ ⟨p, hph, hne, hnone3⟩

theorem stepEntities_some {I E Beh BSt Act A : Type} (ext : SceneExt I E Beh BSt Act A)
    (e : E) (entries : List (Nat × List (BSt × ActionState A))) (sc : Scene I BSt A)
    (hgood : ∀ p ∈ entries, p.2 ≠ [] → (Scene.child_mut sc p.1).isSome = true) :
    (stepEntities ext e sc entries).isSome = true := by
  induction entries generalizing sc with
  | nil => rw [stepEntities]; rfl
  | cons en rest ih =>
      obtain ⟨i0, l0⟩ := en
      rw [stepEntities]
      cases hl0 : l0 with
      | nil =>
          rw [stepPairs]
          simp only [List.length_nil, gt_iff_lt, Nat.lt_irrefl, if_false]
          exact ih sc fun p hp hne => hgood p (List.mem_cons_of_mem _ hp) hne
      | cons pr rest0 =>
          have hcm : (Scene.child_mut sc i0).isSome = true :=
            hgood (i0, l0) (List.mem_cons_self _ _) (by rw [hl0]; simp)
          rw [← hl0]
          have hsp := stepPairs_some ext e i0 l0 sc [] hcm
          cases hspe : stepPairs ext e i0 sc [] l0 with
          | none => rw [hspe] at hsp; simp at hsp
          | some res =>
              obtain ⟨sc3, na⟩ := res
              obtain ⟨_, _, hpt⟩ := stepPairs_pres l0 hspe
              have hgood3 : ∀ p ∈ rest, p.2 ≠ [] → (Scene.child_mut sc3 p.1).isSome = true :=
                fun p hp hne => (hpt p.1).trans (hgood p (List.mem_cons_of_mem _ hp) hne)
              by_cases hlen : na.length > 0
              · simp only [hlen, if_pos]
                apply ih
                intro p hp hne
                rw [child_mut_set_running]
                exact hgood3 p hp hne
              · simp only [hlen, if_neg]
                exact ih _ hgood3

theorem mapInsert_inv {β : Type} {l : List (Nat × List β)} {k : Nat} {v : List β}
    (hinv : ∀ p ∈ l, p.2 ≠ []) (hv : v ≠ []) : ∀ p ∈ mapInsert l k v, p.2 ≠ [] := by
  induction l with
  | nil =>
      intro p hp
      rw [mapInsert] at hp
      rcases List.mem_cons.1 hp with h | h
      · subst h; exact hv
      · cases h
  | cons kv rest ih =>
      obtain ⟨k2, v2⟩ := kv
      intro p hp
      rw [mapInsert] at hp
      by_cases hk : k2 = k
      · rw [if_pos hk] at hp
        rcases List.mem_cons.1 hp with h | h
        · subst h; exact hv
        · exact hinv p (List.mem_cons_of_mem _ h)
      · rw [if_neg hk] at hp
        rcases List.mem_cons.1 hp with h | h
        · subst h; exact hinv (k2, v2) (List.mem_cons_self _ _)
        · exact ih (fun q hq => hinv q (List.mem_cons_of_mem _ hq)) p h

theorem runPush_inv {β : Type} {l : List (Nat × List β)} {k : Nat} {v : β}
    (hinv : ∀ p ∈ l, p.2 ≠ []) : ∀ p ∈ runPush l k v, p.2 ≠ [] := by
  induction l with
  | nil =>
      intro p hp
      rw [runPush] at hp
      rcases List.mem_cons.1 hp with h | h
      · subst h; simp
      · cases h
  | cons kv rest ih =>
      obtain ⟨k2, v2⟩ := kv
      intro p hp
      rw [runPush] at hp
      by_cases hk : k2 = k
      · rw [if_pos hk] at hp
        rcases List.mem_cons.1 hp with h | h
        · subst h; simp
        · exact hinv p (List.mem_cons_of_mem _ h)
      · rw [if_neg hk] at hp
        rcases List.mem_cons.1 hp with h | h
        · subst h; exact hinv (k2, v2) (List.mem_cons_self _ _)
        · exact ih (fun q hq => hinv q (List.mem_cons_of_mem _ hq)) p h

theorem stepEntities_inv {I E Beh BSt Act A : Type} {ext : SceneExt I E Beh BSt Act A}
    {e : E} (entries : List (Nat × List (BSt × ActionState A))) {sc sc2 : Scene I BSt A}
    (hinv : ∀ p ∈ sc.running, p.2 ≠ [])
    (h : stepEntities ext e sc entries = some sc2) :
    ∀ p ∈ sc2.running, p.2 ≠ [] := by
  induction entries generalizing sc with
  | nil =>
      rw [stepEntities] at h
      injection h with h2
      subst h2
      exact hinv
  | cons en rest ih =>
      obtain ⟨i0, l0⟩ := en
      rw [stepEntities] at h
      cases hsp : stepPairs ext e i0 sc [] l0 with
      | none => simp only [hsp] at h; cases h
      | some res =>
          obtain ⟨sc3, na⟩ := res
          simp only [hsp] at h
          obtain ⟨hr3, _, _⟩ := stepPairs_pres l0 hsp
          by_cases hlen : na.length > 0
          · simp only [hlen, if_pos] at h
            apply ih _ h
            simp only []
            apply mapInsert_inv
            · rw [hr3]; exact hinv
            · intro hna
              rw [hna] at hlen
              simp at hlen
          · rw [if_neg hlen] at h
            apply ih _ h
            rw [hr3]
            exact hinv

/-- Claim C1, amended: `update` fails (the Rust code panics on
`child_mut(id).unwrap()`, embedded as a `none` result) precisely when some
entry of `running` has at least one pair and a target id that does not
resolve in the tree; the pair is not silently dropped. Resolvability is
checked against the tree at entry to `update`; it is stable during the tick
because actions mutate only entity attributes. -/
theorem c1_unresolved_target_fails {I E Beh BSt Act A : Type}
    (ext : SceneExt I E Beh BSt Act A) (sc : Scene I BSt A) (e : E) :
    Scene.update ext sc e = none ↔
      ∃ p ∈ sc.running, p.2 ≠ [] ∧ Scene.child_mut sc p.1 = none := by
  rw [Scene.update]
  constructor
  · intro h
    by_contra hno
    push_neg at hno
    have hgood : ∀ p ∈ sc.running, p.2 ≠ [] →
        (Scene.child_mut { sc with running := ([] : List (Nat × List (BSt × ActionState A))) } p.1).isSome = true := by
      intro p hp hne
      rw [child_mut_set_running]
      have hne2 := hno p hp hne
      cases hcm : Scene.child_mut sc p.1 with
      | none => exact absurd hcm hne2
      | some c => rfl
    have hsome := stepEntities_some ext e sc.running { sc with running := [] } hgood
    rw [h] at hsome
    simp at hsome
  · rintro ⟨p, hp, hne, hnone⟩
    apply stepEntities_none
    exact ⟨p, hp, hne, by rw [child_mut_set_running]; exact hnone⟩

/-- Claim C3: after every successful `update`, every entry of `running` has
a non-empty pair list; `run_action` preserves that invariant; and an entity
entry none of whose pairs survives the tick is skipped (not inserted into the
rebuilt table), so an id whose pairs all terminate is absent afterwards. -/
theorem c3_running_invariant {I E Beh BSt Act A : Type} :
    (∀ (ext : SceneExt I E Beh BSt Act A) (sc sc2 : Scene I BSt A) (e : E),
        Scene.update ext sc e = some sc2 → ∀ p ∈ sc2.running, p.2 ≠ []) ∧
    (∀ (ext : SceneExt I E Beh BSt Act A) (sc : Scene I BSt A) (i : Nat) (b : Beh),
        (∀ p ∈ sc.running, p.2 ≠ []) →
          ∀ p ∈ (Scene.run_action ext sc i b).running, p.2 ≠ []) ∧
    (∀ (ext : SceneExt I E Beh BSt Act A) (e : E) (sc sc2 : Scene I BSt A) (i : Nat)
        (l : List (BSt × ActionState A)) (rest : List (Nat × List (BSt × ActionState A))),
        stepPairs ext e i sc [] l = some (sc2, []) →
          stepEntities ext e sc ((i, l) :: rest) = stepEntities ext e sc2 rest) := by
  refine ⟨?_, ?_, ?_⟩
  · intro ext sc sc2 e h
    rw [Scene.update] at h
    apply stepEntities_inv sc.running ?_ h
    intro p hp
    simp at hp
  · intro ext sc i b hinv
    rw [Scene.run_action]
    exact runPush_inv hinv
  · intro ext e sc sc2 i l rest h
    rw [stepEntities]
    simp only [h]
    simp

/-- Claim C4: in `update`, a running pair is re-enqueued for the next tick
(with its updated behavior and action states) if and only if the evaluator's
top-level status is `Running`: each processed pair extends the survivor
accumulator exactly when its status is `Running`, and for a single-pair scene
the next `running` table is `[(id, [(a2, s2)])]` when the status is `Running`
(the advanced states are carried forward) and empty otherwise (a behavior
reporting `Success` on its first invocation is absent at the very next
`update`). -/
theorem c4_requeue_iff {I E Beh BSt Act A : Type} :
    (∀ (ext : SceneExt I E Beh BSt Act A) (e : E) (i : Nat) (sc sc2 : Scene I BSt A)
        (acc : List (BSt × ActionState A)) (a a2 : BSt) (s s2 : ActionState A)
        (rest : List (BSt × ActionState A)) (status : Status),
        runPair ext e a s sc i = some (sc2, a2, s2, status) →
        stepPairs ext e i sc acc ((a, s) :: rest)
          = stepPairs ext e i sc2
              (if status = Status.Running then acc ++ [(a2, s2)] else acc) rest) ∧
    (∀ (ext : SceneExt I E Beh BSt Act A) (e : E) (sc sc2 : Scene I BSt A) (i : Nat)
        (a a2 : BSt) (s s2 : ActionState A) (status : Status),
        sc.running = [(i, [(a, s)])] →
        runPair ext e a s { sc with running := [] } i = some (sc2, a2, s2, status) →
        Scene.update ext sc e =
          some (if status = Status.Running
                then { sc2 with running := [(i, [(a2, s2)])] } else sc2)) := by
  have hstep : ∀ (ext : SceneExt I E Beh BSt Act A) (e : E) (i : Nat)
      (sc sc2 : Scene I BSt A) (acc : List (BSt × ActionState A)) (a a2 : BSt)
      (s s2 : ActionState A) (rest : List (BSt × ActionState A)) (status : Status),
      runPair ext e a s sc i = some (sc2, a2, s2, status) →
      stepPairs ext e i sc acc ((a, s) :: rest)
        = stepPairs ext e i sc2
            (if status = Status.Running then acc ++ [(a2, s2)] else acc) rest := by
    intro ext e i sc sc2 acc a a2 s s2 rest status hpair
    rw [stepPairs]
    simp only [hpair]
  refine ⟨hstep, ?_⟩
  intro ext e sc sc2 i a a2 s s2 status hrun hpair
  have hrany : sc2.running = [] := (runPair_pres hpair).1
  have hsp : stepPairs ext e i { sc with running := [] } [] [(a, s)]
      = some (sc2, if status = Status.Running then [(a2, s2)] else []) := by
    rw [hstep ext e i _ sc2 [] a a2 s s2 [] status hpair, stepPairs]
    by_cases hst : status = Status.Running
    · simp [hst]
    · simp [hst]
  rw [Scene.update, hrun, stepEntities]
  simp only [hsp]
  by_cases hst : status = Status.Running
  · subst hst
    rw [if_pos rfl, if_pos (by simp), stepEntities, hrany]
    rfl
  · rw [if_neg hst, if_neg hst,
      if_neg (by simp : ¬(([] : List (BSt × ActionState A)).length > 0)), stepEntities]

theorem runPush_lookup_self {β : Type} (l : List (Nat × List β)) (k : Nat) (p : β) :
    lookupIdx (runPush l k p) k = some ((lookupIdx l k).getD [] ++ [p]) := by
  induction l with
  | nil => simp [runPush, lookupIdx]
  | cons kv rest ih =>
      obtain ⟨k2, v2⟩ := kv
      rw [runPush]
      by_cases hk : k2 = k
      · rw [if_pos hk, lookupIdx, if_pos hk, lookupIdx, if_pos hk]
        rfl
      · rw [if_neg hk, lookupIdx, if_neg hk, lookupIdx, if_neg hk, ih]

theorem runPush_lookup_ne {β : Type} (l : List (Nat × List β)) (k j : Nat) (p : β)
    (hne : j ≠ k) : lookupIdx (runPush l k p) j = lookupIdx l j := by
  induction l with
  | nil =>
      rw [runPush, lookupIdx, lookupIdx, if_neg (fun h => hne h.symm), lookupIdx]
  | cons kv rest ih =>
      obtain ⟨k2, v2⟩ := kv
      rw [runPush]
      by_cases hk : k2 = k
      · rw [if_pos hk, lookupIdx, lookupIdx]
        rw [if_neg (by rw [hk]; exact fun h => hne h.symm), if_neg (by rw [hk]; exact fun h => hne h.symm)]
      · rw [if_neg hk, lookupIdx, lookupIdx]
        by_cases hkj : k2 = j
        · rw [if_pos hkj, if_pos hkj]
        · rw [if_neg hkj, if_neg hkj, ih]

/-- Claim C6: `run_action(id, behavior)` appends exactly one freshly
constructed `(State::new(behavior), EmptyState)` pair to that id's running
list, touching neither other ids' entries nor the tree; two calls on the same
id append two entries in insertion order; and in a two-pair entry whose first
pair reports a terminal status while the second reports `Running`, the tick
keeps exactly the second (advanced) pair. -/
theorem c6_run_action_appends {I E Beh BSt Act A : Type} :
    (∀ (ext : SceneExt I E Beh BSt Act A) (sc : Scene I BSt A) (i : Nat) (b : Beh),
        lookupIdx (Scene.run_action ext sc i b).running i
          = some ((lookupIdx sc.running i).getD []
              ++ [(ext.stateNew b, ActionState.EmptyState)]) ∧
        (∀ j, j ≠ i → lookupIdx (Scene.run_action ext sc i b).running j
            = lookupIdx sc.running j) ∧
        (Scene.run_action ext sc i b).children = sc.children ∧
        (Scene.run_action ext sc i b).children_index = sc.children_index) ∧
    (∀ (ext : SceneExt I E Beh BSt Act A) (sc : Scene I BSt A) (i : Nat) (b1 b2 : Beh),
        lookupIdx ((Scene.run_action ext (Scene.run_action ext sc i b1) i b2)).running i
          = some ((lookupIdx sc.running i).getD []
              ++ [(ext.stateNew b1, ActionState.EmptyState),
                  (ext.stateNew b2, ActionState.EmptyState)])) ∧
    (∀ (ext : SceneExt I E Beh BSt Act A) (e : E) (i : Nat) (sc sc2 sc3 : Scene I BSt A)
        (a1 a1' a2 a2' : BSt) (s1 s1' s2 s2' : ActionState A) (st1 st2 : Status),
        runPair ext e a1 s1 sc i = some (sc2, a1', s1', st1) → st1 ≠ Status.Running →
        runPair ext e a2 s2 sc2 i = some (sc3, a2', s2', st2) → st2 = Status.Running →
        stepPairs ext e i sc [] [(a1, s1), (a2, s2)] = some (sc3, [(a2', s2')])) := by
  refine ⟨?_, ?_, ?_⟩
  · intro ext sc i b
    refine ⟨?_, ?_, rfl, rfl⟩
    · rw [Scene.run_action]
      exact runPush_lookup_self sc.running i _
    · intro j hj
      rw [Scene.run_action]
      exact runPush_lookup_ne sc.running i j _ hj
  · intro ext sc i b1 b2
    rw [Scene.run_action, Scene.run_action]
    rw [runPush_lookup_self, runPush_lookup_self]
    simp
  · intro ext e i sc sc2 sc3 a1 a1' a2 a2' s1 s1' s2 s2' st1 st2 h1 hne h2 hst
    rw [stepPairs]
    simp only [h1]
    rw [if_neg hne]
    rw [stepPairs]
    simp only [h2]
    rw [if_pos hst]
    rw [stepPairs]
    simp

/-- Counterexample to claim C1 as stated: a scene whose only running pair
targets id 99, absent from the (empty) tree. The claim says the pair is
silently dropped and `update` itself does not fail; in the code `update`
panics (`none` in the embedding). -/
theorem c1_counterexample :
    Scene.update extSuccess sceneMissing () = none := by
  simp [sceneMissing, Scene.run_action, Scene.new, runPush, extSuccess, Scene.update,
    stepEntities, stepPairs, runPair, Scene.modifyChild, lookupIdx, Sprite.modifyChildList]

/-- Witness for the amended claim C1 at a concrete input: a scene holding
sprite 7 with a running pair for the absent id 42; `update` fails. -/
theorem c1_witness :
    Scene.update extRunning sceneMissing2 () = none := by
  apply (c1_unresolved_target_fails extRunning sceneMissing2 ()).2
  refine ⟨(42, [((), ActionState.EmptyState)]), ?_, by simp, ?_⟩
  · simp [sceneMissing2, Scene.run_action, runPush, sceneOne, Scene.new, Scene.add_child,
      extRunning, extSuccess, sprite7, Sprite.from_texture, Sprite.id, lookupIdx]
  · simp [sceneMissing2, Scene.run_action, runPush, sceneOne, Scene.new, Scene.add_child,
      Scene.child_mut, sprite7, Sprite.from_texture, Sprite.id, lookupIdx, mapInsert,
      Sprite.childMutList, Sprite.child_mut]

/-- Witness for claim C2 at a concrete input: in a scene holding a two-level
tree, the nested sprite 8 is resolved, and the absent id 99 is not. -/
theorem c2_witness :
    Scene.child sceneNested 8 = some sprite8 ∧ Scene.child sceneNested 99 = none := by
  have h := c2_child_resolves sceneNested
    (by simp [sceneNested, Scene.new, Scene.add_child, Scene.wf, sprite78, sprite7, sprite8,
      Sprite.add_child, Sprite.from_texture, Sprite.id, Sprite.wfIdx, Sprite.wfList, Sprite.wf,
      lookupIdx, mapInsert])
    (by simp [sceneNested, Scene.new, Scene.add_child, Scene.ids, Scene.sprites, sprite78,
      sprite7, sprite8, Sprite.add_child, Sprite.from_texture, Sprite.id, Sprite.subtreesList,
      Sprite.subtrees, mapInsert])
  constructor
  · have h8 := h.1 sprite8 (by
      simp [sceneNested, Scene.new, Scene.add_child, Scene.sprites, sprite78, sprite7,
        Sprite.add_child, mapInsert, Sprite.subtreesList, Sprite.subtrees, sprite8,
        Sprite.from_texture])
    have hid : sprite8.id = 8 := by simp [sprite8, Sprite.from_texture, Sprite.id]
    rw [← hid]
    exact h8
  · apply h.2
    simp [sceneNested, Scene.new, Scene.add_child, Scene.ids, Scene.sprites, sprite78,
      sprite7, sprite8, Sprite.add_child, Sprite.from_texture, Sprite.id, Sprite.subtreesList,
      Sprite.subtrees, mapInsert]

/-- Witness for claim C3 at a concrete input: after `run_action` on a scene
already holding one running pair, every entry is non-empty. -/
theorem c3_witness :
    ∀ p ∈ (Scene.run_action extRunning sceneOnePair 7 ()).running,
      p.2 ≠ ([] : List (Unit × ActionState Unit)) := by
  apply (c3_running_invariant).2.1 extRunning sceneOnePair 7 ()
  intro p hp
  simp [sceneOnePair, sceneOne, Scene.run_action, runPush, Scene.new, Scene.add_child,
    extRunning, extSuccess, sprite7, Sprite.from_texture, Sprite.id, lookupIdx] at hp
  rw [hp]
  simp

/-- Witness for claim C4 at a concrete input: under an always-`Running`
evaluator, the single pair of sprite 7 is re-enqueued with its action state
bound; the updated scene's table carries the pair forward. -/
theorem c4_witness :
    stepPairs extRunning () 7 { sceneOnePair with running := [] } []
        [((), ActionState.EmptyState)]
      = some ({ children := [sprite7], children_index := [(7, 0)], running := [] },
              [((), ActionState.Bound ())]) ∧
    Scene.update extRunning sceneOnePair () =
      some { children := [sprite7], children_index := [(7, 0)],
             running := [(7, [((), ActionState.Bound ())])] } := by
  have hpair : runPair extRunning () () ActionState.EmptyState
      { sceneOnePair with running := [] } 7
      = some ({ children := [sprite7], children_index := [(7, 0)], running := [] },
          (), ActionState.Bound (), Status.Running) := by
    simp [sceneOnePair, sceneOne, Scene.run_action, runPush, Scene.new, Scene.add_child,
      extRunning, extSuccess, sprite7, Sprite.from_texture, Sprite.id, lookupIdx,
      runPair, Scene.modifyChild, leafStep, Sprite.getAttrs, Sprite.setAttrs, mapInsert]
  have h1 := (c4_requeue_iff).1 extRunning () 7 { sceneOnePair with running := [] }
      { children := [sprite7], children_index := [(7, 0)], running := [] } []
      () () ActionState.EmptyState (ActionState.Bound ()) [] Status.Running hpair
  have h2 := (c4_requeue_iff).2 extRunning () sceneOnePair
      { children := [sprite7], children_index := [(7, 0)], running := [] } 7
      () () ActionState.EmptyState (ActionState.Bound ()) Status.Running
      (by simp [sceneOnePair, sceneOne, Scene.run_action, runPush, Scene.new, Scene.add_child,
        extRunning, extSuccess, sprite7, Sprite.from_texture, Sprite.id, lookupIdx])
      hpair
  refine ⟨?_, by simpa using h2⟩
  rw [h1]
  simp [stepPairs]

/-- Witness for claim C6 at a concrete input: of two pairs on sprite 7 under
an evaluator that terminates the first and keeps the second running, exactly
the second survives the tick. -/
theorem c6_witness :
    stepPairs extMix () 7 sceneOneB []
        [(false, ActionState.EmptyState), (true, ActionState.EmptyState)]
      = some ({ children := [sprite7], children_index := [(7, 0)], running := [] },
              [(true, ActionState.Bound ())]) := by
  apply (c6_run_action_appends).2.2 extMix () 7 sceneOneB
      { children := [sprite7], children_index := [(7, 0)], running := [] }
      { children := [sprite7], children_index := [(7, 0)], running := [] }
      false false true true
      ActionState.EmptyState (ActionState.Bound ()) ActionState.EmptyState
      (ActionState.Bound ()) Status.Success Status.Running
  · simp [sceneOneB, Scene.new, Scene.add_child, extMix, sprite7, Sprite.from_texture,
      Sprite.id, lookupIdx, runPair, Scene.modifyChild, leafStep, Sprite.getAttrs,
      Sprite.setAttrs, mapInsert]
  · simp
  · simp [extMix, sprite7, Sprite.from_texture, Sprite.id, lookupIdx, runPair,
      Scene.modifyChild, leafStep, Sprite.getAttrs, Sprite.setAttrs, mapInsert]
  · rfl

/-- Witness for claim C7 at a concrete input: a 64×64 parent at (10, 20)
holding a 32×32 child at (5, 6), drawn with rotation tables for angle 0. -/
theorem c7_witness :
    Sprite.draw qOne qZero c7parent Aff.ident =
      Sprite.drawHead qOne qZero c7parent Aff.ident ::
        Sprite.draw qOne qZero c7child (Sprite.localTransform qOne qZero Aff.ident c7parent) ∧
    ((Sprite.draw qOne qZero c7parent Aff.ident)[1]?).map
        (fun cmd => cmd.transform.apply (0, 0)) =
      some ((Sprite.localTransform qOne qZero Aff.ident c7parent).apply
        ((((Aff.transA c7child.position.1 c7child.position.2).mul
            (Aff.rotA (qOne c7child.rotation) (qZero c7child.rotation))).mul
            (Aff.scaleA c7child.scale.1 c7child.scale.2)).apply (0, 0))) :=
  c7_transform_composition qOne qZero Aff.ident c7parent c7child
    (by simp [c7parent, c7child, Sprite.add_child, Sprite.from_texture, Sprite.set_position,
      Sprite.children])
    (by simp [c7child, Sprite.from_texture, Sprite.set_position, Sprite.flip_x])
    (by simp [c7child, Sprite.from_texture, Sprite.set_position, Sprite.flip_y])

/-- Witness for claim C8 at a concrete input: the flipped 64×64 sprite's
draw rectangle is [−32, −32, 64, 64]. -/
theorem c8_witness :
    ((Sprite.draw qOne qZero c8sprite Aff.ident).head?).map DrawCmd.rect
      = some (-32, -32, 64, 64) :=
  (c8_flip_handling qOne qZero c8sprite Aff.ident 64 64 32 32
    (by simp [c8sprite, Sprite.from_texture, Sprite.set_flip_x, Sprite.texture,
      ImageSize.get_size])
    (by simp [c8sprite, Sprite.from_texture, Sprite.set_flip_x, Sprite.texture,
      ImageSize.get_size])
    (by norm_num [c8sprite, Sprite.from_texture, Sprite.set_flip_x, Sprite.anchor])
    (by norm_num [c8sprite, Sprite.from_texture, Sprite.set_flip_x, Sprite.anchor])).1

theorem wfIdxEntry_iff {I : Type} {ch : List (Sprite I)} {kv : Nat × Nat} :
    (match ch[kv.2]? with
      | some c => c.id == kv.1
      | none => false) = true ↔ ∃ c, ch[kv.2]? = some c ∧ Sprite.id c = kv.1 := by
  cases hc : ch[kv.2]? with
  | some c => simp [hc]
  | none => simp [hc]

theorem wfIdx_iff {I : Type} {ch : List (Sprite I)} {idx : List (Nat × Nat)} :
    Sprite.wfIdx ch idx = true ↔
      ((∀ kv ∈ idx, ∃ c, ch[kv.2]? = some c ∧ Sprite.id c = kv.1) ∧
       (∀ c ∈ ch, (lookupIdx idx c.id).isSome = true)) := by
  rw [Sprite.wfIdx, Bool.and_eq_true, List.all_eq_true, List.all_eq_true]
  constructor
  · intro ⟨h1, h2⟩
    exact ⟨fun kv hkv => wfIdxEntry_iff.1 (h1 kv hkv), h2⟩
  · intro ⟨h1, h2⟩
    exact ⟨fun kv hkv => wfIdxEntry_iff.2 (h1 kv hkv), h2⟩

theorem mem_mapInsert {β : Type} {l : List (Nat × β)} {k : Nat} {v : β} {p : Nat × β}
    (hp : p ∈ mapInsert l k v) : p ∈ l ∨ p = (k, v) := by
  induction l with
  | nil =>
      rw [mapInsert] at hp
      rcases List.mem_cons.1 hp with h | h
      · exact Or.inr h
      · cases h
  | cons kv2 rest ih =>
      obtain ⟨k2, v2⟩ := kv2
      rw [mapInsert] at hp
      by_cases hk : k2 = k
      · rw [if_pos hk] at hp
        rcases List.mem_cons.1 hp with h | h
        · subst hk; exact Or.inr (by rw [h])
        · exact Or.inl (List.mem_cons_of_mem _ h)
      · rw [if_neg hk] at hp
        rcases List.mem_cons.1 hp with h | h
        · exact Or.inl (h ▸ List.mem_cons_self _ _)
        · rcases ih h with h2 | h2
          · exact Or.inl (List.mem_cons_of_mem _ h2)
          · exact Or.inr h2

theorem lookupIdx_mapInsert_self {β : Type} (l : List (Nat × β)) (k : Nat) (v : β) :
    lookupIdx (mapInsert l k v) k = some v := by
  induction l with
  | nil => rw [mapInsert, lookupIdx, if_pos rfl]
  | cons kv rest ih =>
      obtain ⟨k2, v2⟩ := kv
      rw [mapInsert]
      by_cases hk : k2 = k
      · rw [if_pos hk, lookupIdx, if_pos hk]
      · rw [if_neg hk, lookupIdx, if_neg hk, ih]

theorem lookupIdx_mapInsert_ne {β : Type} (l : List (Nat × β)) (k j : Nat) (v : β)
    (hne : j ≠ k) : lookupIdx (mapInsert l k v) j = lookupIdx l j := by
  induction l with
  | nil => simp [mapInsert, lookupIdx, Ne.symm hne]
  | cons kv rest ih =>
      obtain ⟨k2, v2⟩ := kv
      rw [mapInsert]
      by_cases hk : k2 = k
      · rw [if_pos hk, lookupIdx, lookupIdx, if_neg (by rw [hk]; exact fun h => hne h.symm),
          if_neg (by rw [hk]; exact fun h => hne h.symm)]
      · rw [if_neg hk, lookupIdx, lookupIdx]
        by_cases hkj : k2 = j
        · rw [if_pos hkj, if_pos hkj]
        · rw [if_neg hkj, if_neg hkj, ih]

theorem wfIdx_add {I : Type} {ch : List (Sprite I)} {idx : List (Nat × Nat)}
    (h : Sprite.wfIdx ch idx = true) (c : Sprite I) :
    Sprite.wfIdx (ch ++ [c]) (mapInsert idx c.id ((ch ++ [c]).length - 1)) = true := by
  obtain ⟨h1, h2⟩ := wfIdx_iff.1 h
  have hn : (ch ++ [c]).length - 1 = ch.length := by simp
  rw [wfIdx_iff]
  constructor
  · intro kv hkv
    rcases mem_mapInsert hkv with hold | hnew
    · obtain ⟨c2, hc2, hcid⟩ := h1 kv hold
      have hlt : kv.2 < ch.length := getElem?_isSome_iff.1 (by rw [hc2]; rfl)
      refine ⟨c2, ?_, hcid⟩
      rw [List.getElem?_append, if_pos hlt]
      exact hc2
    · subst hnew
      refine ⟨c, ?_, rfl⟩
      simp only [hn]
      rw [List.getElem?_concat_length]
  · intro x hx
    rcases List.mem_append.1 hx with hx | hx
    · by_cases hid : x.id = c.id
      · rw [hid, lookupIdx_mapInsert_self]; rfl
      · rw [lookupIdx_mapInsert_ne _ _ _ _ hid]
        exact h2 x hx
    · rcases List.mem_singleton.1 hx with rfl
      rw [lookupIdx_mapInsert_self]; rfl

theorem wf_from_texture {I : Type} (i : Nat) (tex : I) :
    Sprite.wf (Sprite.from_texture i tex) = true := by
  rw [Sprite.from_texture, Sprite.wf]
  simp [Sprite.wfIdx, Sprite.wfList]

theorem wf_add_child {I : Type} {sp c : Sprite I} (hsp : Sprite.wf sp = true)
    (hc : Sprite.wf c = true) : Sprite.wf (sp.add_child c).1 = true := by
  cases sp with
  | mk i a p r s fx fy ch idx t =>
      rw [Sprite.wf, Bool.and_eq_true] at hsp
      rw [Sprite.add_child, Sprite.wf, Bool.and_eq_true]
      refine ⟨wfIdx_add hsp.1 c, ?_⟩
      rw [wfList_iff]
      intro x hx
      rcases List.mem_append.1 hx with hx | hx
      · exact wfList_iff.1 hsp.2 x hx
      · rcases List.mem_singleton.1 hx with rfl
        exact hc

theorem scene_wf_new {I BSt A : Type} : Scene.wf (Scene.new : Scene I BSt A) = true := by
  rw [Scene.new, Scene.wf]
  simp [Sprite.wfIdx, Sprite.wfList]

theorem scene_wf_add_child {I BSt A : Type} {sc : Scene I BSt A} {sp : Sprite I}
    (hsc : Scene.wf sc = true) (hsp : Sprite.wf sp = true) :
    Scene.wf (sc.add_child sp).1 = true := by
  rw [Scene.wf, Bool.and_eq_true] at hsc
  rw [Scene.add_child, Scene.wf, Bool.and_eq_true]
  refine ⟨wfIdx_add hsc.1 sp, ?_⟩
  rw [wfList_iff]
  intro x hx
  rcases List.mem_append.1 hx with hx | hx
  · exact wfList_iff.1 hsc.2 x hx
  · rcases List.mem_singleton.1 hx with rfl
    exact hsp
